import Mathlib

/-!
Verification of `VaccineCleaner.py` against its specification.

The repository is a single Python file.  Its core is the line-oriented
scrub loop inside `clean_ma_file` (source lines 61-83), which removes an
injected "vaccine_gene" script block from Maya ASCII files, plus the path
rewrite `local_to_perforce_path` (source lines 18-31) and the
checkout/submit orchestration around the loop.

Strings are modelled by Lean `String`; the Python substring test
(`'x' in line`), `str.strip`, `str.startswith`, `str.lower`,
`str.find` and `str.replace` (single characters) are embedded below as
executable functions on the underlying character lists.
-/

/-- Python `needle in hay` on character lists: `true` iff `needle` occurs
contiguously inside `hay`. -/
def containsSub : List Char → List Char → Bool
  | needle, [] => needle.isPrefixOf []
  | needle, c :: rest => needle.isPrefixOf (c :: rest) || containsSub needle rest

/-- Python `hay.find(needle)` on character lists: the least index at which
`needle` occurs, `none` when it does not occur (Python returns `-1`). -/
def strFind : List Char → List Char → Option Nat
  | needle, [] => if needle.isPrefixOf [] then some 0 else none
  | needle, c :: rest =>
      if needle.isPrefixOf (c :: rest) then some 0
      else (strFind needle rest).map (fun i => i + 1)

/-- The whitespace set of Python `str.strip()`. -/
def pyIsSpace (c : Char) : Bool :=
  c = ' ' || c = '\t' || c = '\n' || c = '\r' || c = '\x0b' || c = '\x0c'

/-- Python `s.strip()`: drop leading and trailing whitespace. -/
def pyStrip (s : String) : String :=
  ⟨((s.toList.dropWhile pyIsSpace).reverse.dropWhile pyIsSpace).reverse⟩

/-- Python `s.lower()` as a per-character map. -/
def pyLower (s : String) : String :=
  ⟨s.toList.map Char.toLower⟩

/-- Python `s.replace('\\', '/')`: a per-character map since both the
needle and the replacement are single characters. -/
def pyReplaceBackslash (s : String) : String :=
  ⟨s.toList.map (fun c => if c = '\\' then '/' else c)⟩

/-- Source line 67: `'createNode script' in line and 'vaccine_gene' in line`,
the block-start signature of a vaccine_gene block. -/
def isVaccineBlockStart (line : String) : Bool :=
  containsSub "createNode script".toList line.toList &&
    containsSub "vaccine_gene".toList line.toList

/-- Source line 74: `line.strip().startswith(('addAttr', 'setAttr', '['))`,
the "still inside the block" test. -/
def startsInsideBlock (line : String) : Bool :=
  "addAttr".toList.isPrefixOf (pyStrip line).toList ||
    "setAttr".toList.isPrefixOf (pyStrip line).toList ||
    "[".toList.isPrefixOf (pyStrip line).toList

/-- The mutable state of the scrub loop of `clean_ma_file`
(source lines 61-63): the lines collected so far, the remaining skip
budget and the modified flag. -/
structure ScrubState where
  cleaned_lines : List String
  skip_lines : Nat
  modified : Bool
deriving Repr, DecidableEq

/-- Source lines 73-81: the body of the `skip_lines > 0` branch.  A line
that does not match the inside-block start markers and contains neither
`createNode` nor `breed_gene` ends the skip early and is kept; every other
line decrements the budget and is discarded. -/
def scrubSkipBranch (s : ScrubState) (line : String) : ScrubState :=
  if !(startsInsideBlock line) then
    if !(containsSub "createNode".toList line.toList) &&
        !(containsSub "breed_gene".toList line.toList) then
      { s with skip_lines := 0, cleaned_lines := s.cleaned_lines ++ [line] }
    else
      { s with skip_lines := s.skip_lines - 1 }
  else
    { s with skip_lines := s.skip_lines - 1 }

/-- Source lines 65-83: one iteration of the scrub loop.  The block-start
test is performed first, before the `skip_lines > 0` test, so it fires on
every line regardless of the current skip budget. -/
def scrubStep (s : ScrubState) (line : String) : ScrubState :=
  if isVaccineBlockStart line then
    { s with skip_lines := 10, modified := true }
  else if 0 < s.skip_lines then
    scrubSkipBranch s line
  else
    { s with cleaned_lines := s.cleaned_lines ++ [line] }

/-- The scrub loop started from an empty output, skip budget `k` and a
clear modified flag; the loop of the source starts at `k = 0`. -/
def scrubGo (k : Nat) (lines : List String) : ScrubState :=
  lines.foldl scrubStep { cleaned_lines := [], skip_lines := k, modified := false }

/-- Source lines 61-83: the pure scrub pass of `clean_ma_file` on the lines
read from the file, returning the cleaned lines and the modified flag. -/
def clean_ma_scrub (lines : List String) : List String × Bool :=
  let s := lines.foldl scrubStep { cleaned_lines := [], skip_lines := 0, modified := false }
  (s.cleaned_lines, s.modified)

/-- Source lines 18-31: `local_to_perforce_path`.  `splitdrive` abstracts
`os.path.splitdrive`, whose behaviour is platform-dependent; only its
second component (the drive-less tail) is used. -/
def local_to_perforce_path (splitdrive : String → String × String)
    (local_path : String) : String :=
  match strFind "potter".toList (pyLower (splitdrive local_path).2).toList with
  | some index =>
      "//" ++ pyReplaceBackslash ⟨(splitdrive local_path).2.toList.drop index⟩
  | none => local_path

/-- The Perforce calls issued by `clean_ma_file`, in order. -/
inductive P4Action where
  | edit (depot : String)
  | submitChange (description : String) (depot : String)
  | revert (depot : String)
  | disconnect
deriving Repr, DecidableEq

/-- Outcomes of the external Perforce and filesystem calls of one
`clean_ma_file` run: whether `p4.connect()` returned a truthy result, and
the `P4Exception` / `PermissionError` messages raised by `p4.run('edit')`,
`os.chmod` and `p4.run_submit`, when any. -/
structure P4Oracle where
  connectOk : Bool
  editError : Option String
  chmodError : Option String
  submitError : Option String
deriving Repr, DecidableEq

/-- Observable result of one `clean_ma_file` run: the strings appended to
`log_output`, the Perforce calls issued, and the lines written back to the
file (`none` when the file is left untouched). -/
structure CleanOutcome where
  log : List String
  actions : List P4Action
  written : Option (List String)
deriving Repr, DecidableEq

/-- Source lines 35-111: `clean_ma_file`.  File I/O is abstracted: the
lines read at line 59 are the `lines` argument and the write-back at
lines 87-88 is the `written` field; the Perforce session is abstracted by
the `P4Oracle`.  Every branch mirrors the source's `try`/`except`
structure, so each oracle outcome yields a normal return (the exceptions
of the modelled calls are all caught); the `finally` block always appends
`disconnect`. -/
def clean_ma_file (splitdrive : String → String × String) (o : P4Oracle)
    (file_path : String) (lines : List String)
    (log_output : List String) : CleanOutcome :=
  if o.connectOk = false then
    { log := log_output ++ ["Failed to connect to Perforce."],
      actions := [.disconnect], written := none }
  else
    let depot_path := local_to_perforce_path splitdrive file_path
    let log1 := log_output ++ ["Checking out file: " ++ depot_path]
    match o.editError with
    | some e =>
        { log := log1 ++ ["Error checking out file: " ++ depot_path ++ " " ++ e],
          actions := [.edit depot_path, .disconnect], written := none }
    | none =>
        match o.chmodError with
        | some e =>
            { log := log1 ++ ["Error: " ++ e ++ " - Could not modify " ++ file_path],
              actions := [.edit depot_path, .disconnect], written := none }
        | none =>
            let res := clean_ma_scrub lines
            if res.2 then
              let log2 := log1 ++ ["Cleaned: " ++ file_path]
              match o.submitError with
              | some e =>
                  { log := log2 ++ ["Error submitting file: " ++ depot_path ++ " " ++ e],
                    actions := [.edit depot_path,
                      .submitChange "Removed Vaccine virus from file" depot_path,
                      .revert depot_path, .disconnect],
                    written := some res.1 }
              | none =>
                  { log := log2 ++ ["Submitted: " ++ depot_path],
                    actions := [.edit depot_path,
                      .submitChange "Removed Vaccine virus from file" depot_path,
                      .disconnect],
                    written := some res.1 }
            else
              { log := log1 ++ ["No changes were made: " ++ file_path],
                actions := [.edit depot_path, .disconnect], written := none }

/-- Source lines 193-216: the per-file loop of `clean_pasted_files`,
restricted to valid paths.  Each file is processed independently;
`clean_ma_file` returning normally on every oracle outcome is what lets
the loop continue after a failure. -/
def clean_pasted_files (splitdrive : String → String × String)
    (oracles : String → P4Oracle) (contents : String → List String)
    (file_paths : List String) : List CleanOutcome :=
  file_paths.map (fun fp => clean_ma_file splitdrive (oracles fp) fp (contents fp) [])

/-- Claim C1 as stated: a block-start line sets `skip_lines := 10`,
`modified := true` and is discarded only when `skip_lines = 0`; while
`skip_lines > 0` every line, a block-start line included, is handled by
the skip-branch rules. -/
def scrubClaimC1 : Prop :=
  ∀ (s : ScrubState) (line : String), isVaccineBlockStart line = true →
    (s.skip_lines = 0 →
      scrubStep s line = { s with skip_lines := 10, modified := true }) ∧
    (0 < s.skip_lines → scrubStep s line = scrubSkipBranch s line)

/-- Claim C3 as stated: for a well-formed block of `N ≤ 10` lines (start
line plus `N - 1` inside-marker lines) followed by a line that is not an
inside-marker line, the whole block is removed, the following line is
kept, and scrubbing continues on the remainder; `modified = true`. -/
def scrubClaimC3 : Prop :=
  ∀ (start : String) (inside : List String) (follow : String) (rest : List String),
    isVaccineBlockStart start = true →
    inside.all startsInsideBlock = true →
    inside.length ≤ 9 →
    startsInsideBlock follow = false →
    clean_ma_scrub (start :: inside ++ follow :: rest) =
      (follow :: (clean_ma_scrub rest).1, true)

/-- Claim C4 as stated: when the line ending a short block matches neither
the inside markers nor the `createNode`/`breed_gene` markers, it is kept
and all subsequent lines are kept unchanged. -/
def scrubClaimC4 : Prop :=
  ∀ (start : String) (inside : List String) (term : String) (rest : List String),
    isVaccineBlockStart start = true →
    inside.all startsInsideBlock = true →
    inside.length ≤ 8 →
    startsInsideBlock term = false →
    containsSub "createNode".toList term.toList = false →
    containsSub "breed_gene".toList term.toList = false →
    clean_ma_scrub (start :: inside ++ term :: rest) = (term :: rest, true)

theorem isPrefixOf_eq {l₁ l₂ : List Char} :
    l₁.isPrefixOf l₂ = true ↔ l₁ <+: l₂ := List.isPrefixOf_iff_prefix

theorem containsSub_mono {n₁ n₂ : List Char} (hp : n₁ <+: n₂) :
    ∀ hay : List Char, containsSub n₂ hay = true → containsSub n₁ hay = true := by
  intro hay
  induction hay with
  | nil =>
      intro hc
      simp only [containsSub] at hc ⊢
      exact isPrefixOf_eq.mpr (hp.trans (isPrefixOf_eq.mp hc))
  | cons c rest ih =>
      intro hc
      simp only [containsSub, Bool.or_eq_true] at hc ⊢
      rcases hc with hc | hc
      · exact Or.inl (isPrefixOf_eq.mpr (hp.trans (isPrefixOf_eq.mp hc)))
      · exact Or.inr (ih hc)

theorem blockStart_hasCreateNode {line : String}
    (h : isVaccineBlockStart line = true) :
    containsSub "createNode".toList line.toList = true := by
  have h1 : containsSub "createNode script".toList line.toList = true :=
    (Bool.and_eq_true _ _ |>.mp h).1
  exact containsSub_mono (isPrefixOf_eq.mp (by decide)) _ h1

theorem not_blockStart_of_no_createNode {line : String}
    (h : containsSub "createNode".toList line.toList = false) :
    isVaccineBlockStart line = false := by
  by_contra hb
  rw [Bool.not_eq_false] at hb
  rw [blockStart_hasCreateNode hb] at h
  simp at h

theorem clean_ma_scrub_eq (lines : List String) :
    clean_ma_scrub lines =
      ((scrubGo 0 lines).cleaned_lines, (scrubGo 0 lines).modified) := rfl

theorem scrubStep_split (c : List String) (k : Nat) (m : Bool) (line : String) :
    scrubStep ⟨c, k, m⟩ line =
      ⟨c ++ (scrubStep ⟨[], k, false⟩ line).cleaned_lines,
       (scrubStep ⟨[], k, false⟩ line).skip_lines,
       (m || (scrubStep ⟨[], k, false⟩ line).modified)⟩ := by
  by_cases h1 : isVaccineBlockStart line
  · simp [scrubStep, h1]
  · by_cases h2 : 0 < k
    · by_cases h3 : startsInsideBlock line
      · simp [scrubStep, scrubSkipBranch, h1, h2, h3]
      · simp only [scrubStep, scrubSkipBranch, h1, h2, h3]
        simp only [Bool.not_eq_true] at h1 h3
        simp [h1, h2, h3]
        split <;> simp
    · simp [scrubStep, h1, h2]

theorem scrubFold_split (lines : List String) :
    ∀ (c : List String) (k : Nat) (m : Bool),
      lines.foldl scrubStep ⟨c, k, m⟩ =
        ⟨c ++ (scrubGo k lines).cleaned_lines,
         (scrubGo k lines).skip_lines,
         (m || (scrubGo k lines).modified)⟩ := by
  induction lines with
  | nil => intro c k m; simp [scrubGo]
  | cons l t ih =>
      intro c k m
      have hR : scrubGo k (l :: t) =
          ⟨(scrubStep ⟨[], k, false⟩ l).cleaned_lines ++
             (scrubGo (scrubStep ⟨[], k, false⟩ l).skip_lines t).cleaned_lines,
           (scrubGo (scrubStep ⟨[], k, false⟩ l).skip_lines t).skip_lines,
           ((scrubStep ⟨[], k, false⟩ l).modified ||
             (scrubGo (scrubStep ⟨[], k, false⟩ l).skip_lines t).modified)⟩ := by
        show t.foldl scrubStep (scrubStep ⟨[], k, false⟩ l) = _
        exact ih _ _ _
      rw [List.foldl_cons, scrubStep_split, ih, hR]
      simp [List.append_assoc, Bool.or_assoc]

theorem scrubGo_cons (k : Nat) (l : String) (t : List String) :
    scrubGo k (l :: t) =
      ⟨(scrubStep ⟨[], k, false⟩ l).cleaned_lines ++
         (scrubGo (scrubStep ⟨[], k, false⟩ l).skip_lines t).cleaned_lines,
       (scrubGo (scrubStep ⟨[], k, false⟩ l).skip_lines t).skip_lines,
       ((scrubStep ⟨[], k, false⟩ l).modified ||
         (scrubGo (scrubStep ⟨[], k, false⟩ l).skip_lines t).modified)⟩ := by
  show t.foldl scrubStep (scrubStep ⟨[], k, false⟩ l) = _
  exact scrubFold_split t _ _ _

theorem scrubGo_append (k : Nat) (A B : List String) :
    scrubGo k (A ++ B) =
      ⟨(scrubGo k A).cleaned_lines ++
         (scrubGo (scrubGo k A).skip_lines B).cleaned_lines,
       (scrubGo (scrubGo k A).skip_lines B).skip_lines,
       ((scrubGo k A).modified ||
         (scrubGo (scrubGo k A).skip_lines B).modified)⟩ := by
  show (A ++ B).foldl scrubStep ⟨[], k, false⟩ = _
  rw [List.foldl_append]
  show B.foldl scrubStep (scrubGo k A) = _
  exact scrubFold_split B _ _ _

theorem scrubSkipBranch_modified (s : ScrubState) (line : String) :
    (scrubSkipBranch s line).modified = s.modified := by
  unfold scrubSkipBranch
  split
  · split <;> rfl
  · rfl

theorem scrubSkipBranch_cleaned (s : ScrubState) (line : String) :
    (scrubSkipBranch s line).cleaned_lines = s.cleaned_lines ∨
      (scrubSkipBranch s line).cleaned_lines = s.cleaned_lines ++ [line] := by
  unfold scrubSkipBranch
  split
  · split
    · exact Or.inr rfl
    · exact Or.inl rfl
  · exact Or.inl rfl

theorem scrubStep_of_pos (k : Nat) (line : String)
    (h1 : isVaccineBlockStart line = false) (h2 : 0 < k) :
    scrubStep ⟨[], k, false⟩ line = scrubSkipBranch ⟨[], k, false⟩ line := by
  simp [scrubStep, h1, h2]

theorem scrubStep_modified (k : Nat) (line : String) :
    (scrubStep ⟨[], k, false⟩ line).modified = isVaccineBlockStart line := by
  by_cases h1 : isVaccineBlockStart line
  · simp [scrubStep, h1]
  · have h1f : isVaccineBlockStart line = false := by simpa using h1
    by_cases h2 : 0 < k
    · rw [scrubStep_of_pos k line h1f h2, scrubSkipBranch_modified]
      simp [h1f]
    · simp [scrubStep, h1, h2]

theorem scrubStep_cleaned (k : Nat) (line : String) :
    (scrubStep ⟨[], k, false⟩ line).cleaned_lines = [] ∨
      ((scrubStep ⟨[], k, false⟩ line).cleaned_lines = [line] ∧
        isVaccineBlockStart line = false) := by
  by_cases h1 : isVaccineBlockStart line
  · exact Or.inl (by simp [scrubStep, h1])
  · have h1f : isVaccineBlockStart line = false := by simpa using h1
    by_cases h2 : 0 < k
    · rw [scrubStep_of_pos k line h1f h2]
      rcases scrubSkipBranch_cleaned ⟨[], k, false⟩ line with h | h
      · exact Or.inl (by simpa using h)
      · exact Or.inr ⟨by simpa using h, h1f⟩
    · exact Or.inr ⟨by simp [scrubStep, h1, h2], h1f⟩

theorem scrubGo_modified (lines : List String) :
    ∀ k, (scrubGo k lines).modified = lines.any isVaccineBlockStart := by
  induction lines with
  | nil => intro k; rfl
  | cons l t ih =>
      intro k
      rw [scrubGo_cons]
      simp [scrubStep_modified, ih]

theorem scrubGo_sublist (lines : List String) :
    ∀ k, List.Sublist (scrubGo k lines).cleaned_lines lines := by
  induction lines with
  | nil => intro k; simp [scrubGo]
  | cons l t ih =>
      intro k
      rw [scrubGo_cons]
      rcases scrubStep_cleaned k l with h | h
      · simp only [h, List.nil_append]
        exact (ih _).cons l
      · simp only [h.1, List.singleton_append]
        exact (ih _).cons₂ l

theorem scrubGo_no_bs (lines : List String) :
    ∀ k x, x ∈ (scrubGo k lines).cleaned_lines → isVaccineBlockStart x = false := by
  induction lines with
  | nil => intro k x hx; simp [scrubGo] at hx
  | cons l t ih =>
      intro k x hx
      rw [scrubGo_cons] at hx
      rcases scrubStep_cleaned k l with h | h
      · rw [h, List.nil_append] at hx
        exact ih _ x hx
      · rw [h.1, List.singleton_append, List.mem_cons] at hx
        rcases hx with hx | hx
        · exact hx ▸ h.2
        · exact ih _ x hx

theorem scrubGo_clean (lines : List String) :
    (∀ l ∈ lines, isVaccineBlockStart l = false) →
      scrubGo 0 lines = ⟨lines, 0, false⟩ := by
  induction lines with
  | nil => intro _; rfl
  | cons l t ih =>
      intro h
      have hl : isVaccineBlockStart l = false := h l (List.mem_cons_self l t)
      have hstep : scrubStep ⟨[], 0, false⟩ l = ⟨[l], 0, false⟩ := by
        simp [scrubStep, hl]
      rw [scrubGo_cons, hstep]
      have ht := ih (fun x hx => h x (List.mem_cons_of_mem l hx))
      simp [ht]

theorem scrubGo_inside (inside : List String) :
    ∀ k, (∀ l ∈ inside, startsInsideBlock l = true) →
      inside.length < k → k ≤ 10 →
      (scrubGo k inside).cleaned_lines = [] ∧
        0 < (scrubGo k inside).skip_lines ∧ (scrubGo k inside).skip_lines ≤ 10 := by
  induction inside with
  | nil =>
      intro k _ hlen hk
      exact ⟨rfl, by simpa using hlen, hk⟩
  | cons l t ih =>
      intro k hall hlen hk
      have hlt : t.length + 1 < k := by simpa using hlen
      by_cases hbs : isVaccineBlockStart l = true
      · have hstep : scrubStep ⟨[], k, false⟩ l = ⟨[], 10, true⟩ := by
          simp [scrubStep, hbs]
        rw [scrubGo_cons, hstep]
        have ht := ih 10 (fun x hx => hall x (List.mem_cons_of_mem l hx))
          (by omega) (by omega)
        exact ⟨by simp [ht.1], by simp [ht.2.1], by simp [ht.2.2]⟩
      · have hin : startsInsideBlock l = true := hall l (List.mem_cons_self l t)
        have hk0 : 0 < k := by omega
        have hstep : scrubStep ⟨[], k, false⟩ l = ⟨[], k - 1, false⟩ := by
          simp [scrubStep, scrubSkipBranch, hbs, hk0, hin]
        rw [scrubGo_cons, hstep]
        have ht := ih (k - 1) (fun x hx => hall x (List.mem_cons_of_mem l hx))
          (by omega) (by omega)
        exact ⟨by simp [ht.1], by simp [ht.2.1], by simp [ht.2.2]⟩

theorem strFind_eq_none (n : List Char) :
    ∀ h : List Char, strFind n h = none →
      ∀ j, n.isPrefixOf (h.drop j) = false := by
  intro h
  induction h with
  | nil =>
      intro hf j
      simp only [strFind] at hf
      by_cases hp : n.isPrefixOf ([] : List Char) = true
      · rw [if_pos hp] at hf; cases hf
      · rw [List.drop_nil]
        exact Bool.eq_false_iff.mpr hp
  | cons c rest ih =>
      intro hf j
      simp only [strFind] at hf
      by_cases hp : n.isPrefixOf (c :: rest) = true
      · rw [if_pos hp] at hf; cases hf
      · rw [if_neg hp] at hf
        have hr : strFind n rest = none := by
          cases hfr : strFind n rest with
          | none => rfl
          | some i => rw [hfr] at hf; simp at hf
        cases j with
        | zero =>
            rw [List.drop_zero]
            exact Bool.eq_false_iff.mpr hp
        | succ j => simpa using ih hr j

theorem strFind_eq_some (n : List Char) :
    ∀ (h : List Char) (i : Nat), strFind n h = some i →
      n.isPrefixOf (h.drop i) = true ∧
        ∀ j, j < i → n.isPrefixOf (h.drop j) = false := by
  intro h
  induction h with
  | nil =>
      intro i hf
      simp only [strFind] at hf
      by_cases hp : n.isPrefixOf ([] : List Char) = true
      · rw [if_pos hp] at hf
        injection hf with hf0
        subst hf0
        exact ⟨by simpa using hp, by intro j hj; omega⟩
      · rw [if_neg hp] at hf; cases hf
  | cons c rest ih =>
      intro i hf
      simp only [strFind] at hf
      by_cases hp : n.isPrefixOf (c :: rest) = true
      · rw [if_pos hp] at hf
        injection hf with hf0
        subst hf0
        exact ⟨by simpa using hp, by intro j hj; omega⟩
      · rw [if_neg hp] at hf
        cases hfr : strFind n rest with
        | none => rw [hfr] at hf; simp at hf
        | some i0 =>
            rw [hfr] at hf
            simp only [Option.map] at hf
            injection hf with hf0
            subst hf0
            obtain ⟨h1, h2⟩ := ih i0 hfr
            refine ⟨by simpa using h1, ?_⟩
            intro j hj
            cases j with
            | zero =>
                rw [List.drop_zero]
                exact Bool.eq_false_iff.mpr hp
            | succ j => simpa using h2 j (by omega)

theorem scrubGo_block (start follow : String) (inside rest : List String)
    (hs : isVaccineBlockStart start = true)
    (hinP : ∀ l ∈ inside, startsInsideBlock l = true)
    (hlen : inside.length ≤ 9)
    (hf1 : startsInsideBlock follow = false)
    (hf2 : containsSub "createNode".toList follow.toList = false)
    (hf3 : containsSub "breed_gene".toList follow.toList = false) :
    scrubGo 0 (start :: inside ++ follow :: rest) =
      ⟨follow :: (scrubGo 0 rest).cleaned_lines,
       (scrubGo 0 rest).skip_lines, true⟩ := by
  have hbsf : isVaccineBlockStart follow = false :=
    not_blockStart_of_no_createNode hf2
  have hstep0 : scrubStep ⟨[], 0, false⟩ start = ⟨[], 10, true⟩ := by
    simp [scrubStep, hs]
  obtain ⟨hic, his1, his2⟩ := scrubGo_inside inside 10 hinP (by omega) (by omega)
  have hstepf : scrubStep ⟨[], (scrubGo 10 inside).skip_lines, false⟩ follow
      = ⟨[follow], 0, false⟩ := by
    rw [scrubStep_of_pos _ _ hbsf his1]
    unfold scrubSkipBranch
    simp [hf1]
    exact ⟨hf2, hf3⟩
  rw [List.cons_append, scrubGo_cons, hstep0]
  dsimp only
  rw [scrubGo_append 10 inside (follow :: rest)]
  rw [scrubGo_cons _ follow rest, hstepf]
  dsimp only
  rw [hic]
  simp

/-- Claim C1, counterexample: the claim as stated is false.  The code
performs the block-start test before the `skip_lines > 0` test, so a
block-start line met while `skip_lines = 1` resets the budget to 10
instead of being handled by the skip-branch rules (which would decrement
it to 0). -/
theorem scrubClaimC1_false : ¬ scrubClaimC1 := by
  intro h
  have h2 := (h ⟨[], 1, true⟩ "createNode script vaccine_gene"
    (by decide)).2 (by decide)
  have e1 : scrubStep ⟨[], 1, true⟩ "createNode script vaccine_gene"
      = ⟨[], 10, true⟩ := by decide
  have e2 : scrubSkipBranch ⟨[], 1, true⟩ "createNode script vaccine_gene"
      = ⟨[], 0, true⟩ := by decide
  rw [e1, e2] at h2
  exact absurd h2 (by decide)

/-- Claim C1 (amended): a line matching the block-start signature sets
`skip_lines` to 10, sets `modified` to true and is discarded regardless
of the current value of `skip_lines`; the skip-branch rules apply only to
lines not matching the block-start signature while `skip_lines > 0`. -/
theorem scrubStep_blockStart (s : ScrubState) (line : String) :
    (isVaccineBlockStart line = true →
      scrubStep s line = { s with skip_lines := 10, modified := true }) ∧
    (isVaccineBlockStart line = false → 0 < s.skip_lines →
      scrubStep s line = scrubSkipBranch s line) := by
  constructor
  · intro h
    simp [scrubStep, h]
  · intro h hk
    simp [scrubStep, h, hk]

/-- Witness for the amended C1 at concrete inputs. -/
theorem scrubStep_blockStart_witness :
    scrubStep ⟨[], 1, true⟩ "createNode script vaccine_gene" = ⟨[], 10, true⟩ ∧
    scrubStep ⟨["a"], 3, true⟩ "foo" = scrubSkipBranch ⟨["a"], 3, true⟩ "foo" := by
  constructor
  · exact ((scrubStep_blockStart ⟨[], 1, true⟩
      "createNode script vaccine_gene").1 (by decide)).trans (by decide)
  · exact (scrubStep_blockStart ⟨["a"], 3, true⟩ "foo").2 (by decide) (by decide)

/-- Claim C2: on an input in which no line matches the block-start
signature, the scrub pass returns the input unchanged and
`modified = false`. -/
theorem clean_ma_scrub_no_block (lines : List String)
    (h : lines.all (fun l => !(isVaccineBlockStart l)) = true) :
    clean_ma_scrub lines = (lines, false) := by
  have h2 : ∀ l ∈ lines, isVaccineBlockStart l = false := by
    intro l hl
    simpa using List.all_eq_true.mp h l hl
  rw [clean_ma_scrub_eq, scrubGo_clean lines h2]

/-- Witness for C2 at a concrete input. -/
theorem clean_ma_scrub_no_block_witness :
    clean_ma_scrub ["setAttr x\n", "hello\n"] = (["setAttr x\n", "hello\n"], false) :=
  clean_ma_scrub_no_block _ (by decide)

/-- Claim C3, counterexample: the claim as stated is false.  For the block
consisting of the start line alone, the following line
`"createNode transform\n"` matches no inside-block marker, yet it contains
`createNode`, so the skip branch decrements the budget and discards it
instead of keeping it. -/
theorem scrubClaimC3_false : ¬ scrubClaimC3 := by
  intro h
  have h2 := h "createNode script vaccine_gene\n" []
    "createNode transform\n" [] (by decide) (by decide) (by decide) (by decide)
  exact absurd h2 (by decide)

/-- Claim C3 (amended): as C3, with the additional hypothesis forced by the
counterexample that the line immediately following the block contains
neither `createNode` nor `breed_gene`; the remaining lines are scrubbed as
usual rather than necessarily kept. -/
theorem clean_ma_scrub_block_removed (start follow : String)
    (inside rest : List String)
    (hs : isVaccineBlockStart start = true)
    (hin : inside.all startsInsideBlock = true)
    (hlen : inside.length ≤ 9)
    (hf1 : startsInsideBlock follow = false)
    (hf2 : containsSub "createNode".toList follow.toList = false)
    (hf3 : containsSub "breed_gene".toList follow.toList = false) :
    clean_ma_scrub (start :: inside ++ follow :: rest) =
      (follow :: (clean_ma_scrub rest).1, true) := by
  have hinP : ∀ l ∈ inside, startsInsideBlock l = true := by
    intro l hl
    exact List.all_eq_true.mp hin l hl
  rw [clean_ma_scrub_eq,
    scrubGo_block start follow inside rest hs hinP hlen hf1 hf2 hf3]
  rfl

/-- Witness for the amended C3 at a concrete input: a 3-line block, a kept
follower, and a trailing line. -/
theorem clean_ma_scrub_block_removed_witness :
    clean_ma_scrub ["createNode script \"vaccine_gene\"\n", "addAttr a\n",
        "setAttr b\n", "keep me\n", "tail\n"] =
      (["keep me\n", "tail\n"], true) := by
  have h := clean_ma_scrub_block_removed "createNode script \"vaccine_gene\"\n"
    "keep me\n" ["addAttr a\n", "setAttr b\n"] ["tail\n"]
    (by decide) (by decide) (by decide) (by decide) (by decide) (by decide)
  exact h.trans (by decide)

/-- Claim C4, counterexample: the claim as stated is false.  After the
early stop, a later line matching the block-start signature is removed,
so not every subsequent line is kept. -/
theorem scrubClaimC4_false : ¬ scrubClaimC4 := by
  intro h
  have h2 := h "createNode script vaccine_gene\n" [] "x\n"
    ["createNode script vaccine_gene\n"]
    (by decide) (by decide) (by decide) (by decide) (by decide) (by decide)
  exact absurd h2 (by decide)

/-- Claim C4 (amended): as C4, with the additional hypothesis forced by the
counterexample that no subsequent line matches the block-start
signature. -/
theorem clean_ma_scrub_early_stop (start term : String)
    (inside rest : List String)
    (hs : isVaccineBlockStart start = true)
    (hin : inside.all startsInsideBlock = true)
    (hlen : inside.length ≤ 8)
    (ht1 : startsInsideBlock term = false)
    (ht2 : containsSub "createNode".toList term.toList = false)
    (ht3 : containsSub "breed_gene".toList term.toList = false)
    (hrest : rest.all (fun l => !(isVaccineBlockStart l)) = true) :
    clean_ma_scrub (start :: inside ++ term :: rest) = (term :: rest, true) := by
  have hinP : ∀ l ∈ inside, startsInsideBlock l = true := by
    intro l hl
    exact List.all_eq_true.mp hin l hl
  have hrestP : ∀ l ∈ rest, isVaccineBlockStart l = false := by
    intro l hl
    simpa using List.all_eq_true.mp hrest l hl
  rw [clean_ma_scrub_eq,
    scrubGo_block start term inside rest hs hinP (by omega) ht1 ht2 ht3,
    scrubGo_clean rest hrestP]

/-- Witness for the amended C4 at a concrete input: a 2-line block ended
early by an ordinary line, followed by ordinary lines. -/
theorem clean_ma_scrub_early_stop_witness :
    clean_ma_scrub ["createNode script \"vaccine_gene\"\n", "addAttr a\n",
        "plain line\n", "tail1\n", "tail2\n"] =
      (["plain line\n", "tail1\n", "tail2\n"], true) := by
  have h := clean_ma_scrub_early_stop "createNode script \"vaccine_gene\"\n"
    "plain line\n" ["addAttr a\n"] ["tail1\n", "tail2\n"]
    (by decide) (by decide) (by decide) (by decide) (by decide) (by decide)
    (by decide)
  exact h.trans (by decide)

/-- Claim C5: the scrub pass is idempotent.  Its output never contains a
block-start line, so a second pass keeps every line and reports
`modified = false`. -/
theorem clean_ma_scrub_idempotent (lines : List String) :
    clean_ma_scrub ((clean_ma_scrub lines).1) = ((clean_ma_scrub lines).1, false) := by
  have h : ∀ l ∈ (clean_ma_scrub lines).1, isVaccineBlockStart l = false := by
    intro l hl
    exact scrubGo_no_bs lines 0 l hl
  rw [clean_ma_scrub_eq ((clean_ma_scrub lines).1), scrubGo_clean _ h]

/-- Claim C6: the cleaned lines are a subsequence of the input lines:
every kept line is unchanged and in its original relative order; the pass
only removes lines. -/
theorem clean_ma_scrub_sublist (lines : List String) :
    List.Sublist (clean_ma_scrub lines).1 lines :=
  scrubGo_sublist lines 0

/-- Claim C7: the end-to-end example of the specification. -/
theorem clean_ma_scrub_example :
    clean_ma_scrub ["createNode script \"vaccine_gene\"\n", "addAttr ...\n",
        "setAttr ...\n", "other content\n"] =
      (["other content\n"], true) := by decide

/-- Claim C10: no output line matches the block-start signature (the
block-start branch fires on every line, whatever the skip budget), and
`modified = true` exactly when some input line matches it. -/
theorem clean_ma_scrub_invariant (lines : List String) :
    (clean_ma_scrub lines).1.all (fun l => !(isVaccineBlockStart l)) = true ∧
      (clean_ma_scrub lines).2 = lines.any isVaccineBlockStart := by
  constructor
  · refine List.all_eq_true.mpr ?_
    intro l hl
    simpa using scrubGo_no_bs lines 0 l hl
  · exact scrubGo_modified lines 0

/-- Claim C8: when the lower-cased drive-less tail of the path contains
the marker `potter`, `local_to_perforce_path` returns `//` followed by the
original-case tail from the first marker occurrence onward with every
backslash replaced by `/`; when the marker is absent the input path is
returned unchanged. -/
theorem local_to_perforce_path_ok (splitdrive : String → String × String)
    (local_path : String) :
    ((∀ j : Nat,
        "potter".toList.isPrefixOf
          ((pyLower (splitdrive local_path).2).toList.drop j) = false) →
      local_to_perforce_path splitdrive local_path = local_path) ∧
    (∀ i : Nat,
      "potter".toList.isPrefixOf
        ((pyLower (splitdrive local_path).2).toList.drop i) = true →
      (∀ j, j < i →
        "potter".toList.isPrefixOf
          ((pyLower (splitdrive local_path).2).toList.drop j) = false) →
      local_to_perforce_path splitdrive local_path =
        "//" ++ pyReplaceBackslash ⟨(splitdrive local_path).2.toList.drop i⟩) := by
  constructor
  · intro hno
    unfold local_to_perforce_path
    cases hf : strFind "potter".toList (pyLower (splitdrive local_path).2).toList with
    | none => rfl
    | some i =>
        have h1 := (strFind_eq_some _ _ i hf).1
        rw [hno i] at h1
        cases h1
  · intro i hi hmin
    unfold local_to_perforce_path
    cases hf : strFind "potter".toList (pyLower (splitdrive local_path).2).toList with
    | none =>
        have h1 := strFind_eq_none _ _ hf i
        rw [hi] at h1
        cases h1
    | some i0 =>
        obtain ⟨h1, h2⟩ := strFind_eq_some _ _ i0 hf
        have hii : i0 = i := by
          rcases Nat.lt_trichotomy i0 i with h | h | h
          · have h3 := hmin i0 h
            rw [h1] at h3
            cases h3
          · exact h
          · have h3 := h2 i h
            rw [hi] at h3
            cases h3
        subst hii
        rfl

/-- Witness for C8 at concrete inputs: the marker is found
case-insensitively at index 3 and the original case is preserved in the
rewritten tail; an empty path is returned unchanged. -/
theorem local_to_perforce_path_witness :
    local_to_perforce_path (fun s => ("", s)) "C:\\Potter\\scenes\\a.ma"
        = "//Potter/scenes/a.ma" ∧
    local_to_perforce_path (fun s => ("", s)) "" = "" := by
  constructor
  · have h := (local_to_perforce_path_ok (fun s => ("", s))
      "C:\\Potter\\scenes\\a.ma").2 3 (by decide)
      (by intro j hj; interval_cases j <;> decide)
    exact h.trans (by decide)
  · refine (local_to_perforce_path_ok (fun s => ("", s)) "").1 ?_
    intro j
    have he : (pyLower ((fun s => ("", s)) "" : String × String).2).toList
        = ([] : List Char) := by decide
    rw [he, List.drop_nil]
    decide

/-- Claim C9: when the scrub pass reports `modified = true` and the
changelist submit raises a `P4Exception`, `clean_ma_file` reverts the
checkout (the action trace is edit, submit, revert, disconnect), logs the
submit error, still wrote the cleaned lines, and returns normally, so a
batch containing the file still processes every other file. -/
theorem clean_ma_file_submit_failure
    (splitdrive : String → String × String) (o : P4Oracle)
    (file_path e : String) (lines log_output : List String)
    (hc : o.connectOk = true) (he : o.editError = none)
    (hch : o.chmodError = none)
    (hm : (clean_ma_scrub lines).2 = true)
    (hs : o.submitError = some e) :
    (clean_ma_file splitdrive o file_path lines log_output).actions =
      [P4Action.edit (local_to_perforce_path splitdrive file_path),
       P4Action.submitChange "Removed Vaccine virus from file"
         (local_to_perforce_path splitdrive file_path),
       P4Action.revert (local_to_perforce_path splitdrive file_path),
       P4Action.disconnect] ∧
    ("Error submitting file: " ++ local_to_perforce_path splitdrive file_path
        ++ " " ++ e) ∈ (clean_ma_file splitdrive o file_path lines log_output).log ∧
    (clean_ma_file splitdrive o file_path lines log_output).written =
      some (clean_ma_scrub lines).1 ∧
    (∀ (oracles : String → P4Oracle) (contents : String → List String)
        (pre post : List String),
      oracles file_path = o → contents file_path = lines →
      clean_pasted_files splitdrive oracles contents (pre ++ file_path :: post) =
        clean_pasted_files splitdrive oracles contents pre ++
          clean_ma_file splitdrive o file_path lines [] ::
            clean_pasted_files splitdrive oracles contents post) := by
  refine ⟨?_, ?_, ?_, ?_⟩
  · simp [clean_ma_file, hc, he, hch, hm, hs]
  · simp [clean_ma_file, hc, he, hch, hm, hs]
  · simp [clean_ma_file, hc, he, hch, hm, hs]
  · intro oracles contents pre post ho hcont
    simp [clean_pasted_files, ho, hcont]

/-- Witness for C9 at concrete inputs. -/
theorem clean_ma_file_submit_failure_witness :
    (clean_ma_file (fun s => ("", s)) ⟨true, none, none, some "boom"⟩
        "q\\Potter\\a.ma"
        ["createNode script \"vaccine_gene\"\n", "other\n"] []).actions =
      [P4Action.edit (local_to_perforce_path (fun s => ("", s)) "q\\Potter\\a.ma"),
       P4Action.submitChange "Removed Vaccine virus from file"
         (local_to_perforce_path (fun s => ("", s)) "q\\Potter\\a.ma"),
       P4Action.revert (local_to_perforce_path (fun s => ("", s)) "q\\Potter\\a.ma"),
       P4Action.disconnect] ∧
    ("Error submitting file: "
        ++ local_to_perforce_path (fun s => ("", s)) "q\\Potter\\a.ma"
        ++ " " ++ "boom") ∈
      (clean_ma_file (fun s => ("", s)) ⟨true, none, none, some "boom"⟩
        "q\\Potter\\a.ma"
        ["createNode script \"vaccine_gene\"\n", "other\n"] []).log ∧
    (clean_ma_file (fun s => ("", s)) ⟨true, none, none, some "boom"⟩
        "q\\Potter\\a.ma"
        ["createNode script \"vaccine_gene\"\n", "other\n"] []).written =
      some (clean_ma_scrub
        ["createNode script \"vaccine_gene\"\n", "other\n"]).1 := by
  have h := clean_ma_file_submit_failure (fun s => ("", s))
    ⟨true, none, none, some "boom"⟩ "q\\Potter\\a.ma" "boom"
    ["createNode script \"vaccine_gene\"\n", "other\n"] []
    rfl rfl rfl (by decide) rfl
  exact ⟨h.1, h.2.1, h.2.2.1⟩
